import Mathlib

/-!
Verification development for the ARES agent-swarm coordinator
(internal/agent_swarm/coordinator.py).

The task-dispatch loop, its status state machine, the task-store
operations and the startup credential check are shallowly embedded as
executable Lean functions over an explicit database state.  Wall-clock
time (`NOW()`) is modelled by a logical clock stored in the database
state that advances on every store operation; external LLM calls are
modelled by an oracle (`ApiEnv`) mapping each worker to either a result
document or a raised error message, mirroring the try/except structure
of `execute_task`.
-/

namespace Swarm

/-- Task statuses appearing in the `task_queue` table. -/
inductive TaskStatus where
  | pending
  | assigned
  | in_progress
  | completed
  | failed
deriving DecidableEq, Repr

/-- Result document returned by a worker.  For SOLACE the fields
`decision`, `delegate_to`, `reasoning`, `guidance` mirror the JSON
protocol of `execute_with_solace`; `body` stands for the free-text
payload (`implementation` / `plan` / `analysis`) of the other workers. -/
structure ResultDoc where
  decision : Option String := none
  delegate_to : Option String := none
  reasoning : Option String := none
  guidance : Option String := none
  tokens_used : Nat := 0
  body : String := ""
  agent : String := ""
deriving DecidableEq, Repr, Inhabited

/-- The `context` column: either an arbitrary JSON document supplied by
the producer, or the document written by the delegation insert in
`execute_task` (keys `delegated_from` and `guidance`). -/
inductive TaskContext where
  | json (s : String)
  | delegated (from_task : Nat) (guidance : Option String)
deriving DecidableEq, Repr

/-- A row of `task_queue`. -/
structure Task where
  task_id : Nat
  task_type : String
  priority : Int
  status : TaskStatus
  created_by : String
  assigned_to_agent : String
  description : String
  context : TaskContext
  file_paths : List String := []
  depends_on_task_ids : List Nat := []
  created_at : Nat
  assigned_at : Option Nat := none
  started_at : Option Nat := none
  completed_at : Option Nat := none
  result : Option ResultDoc := none
  error_log : Option String := none
  retry_count : Nat := 0
deriving DecidableEq, Repr

/-- A row of `agent_registry`. -/
structure AgentReg where
  agent_name : String
  status : String
  current_task_id : Option Nat
  last_active_at : Nat
deriving DecidableEq, Repr

/-- A row of `agent_task_history`. -/
structure HistoryEntry where
  agent_name : String
  task_id : Nat
  task_type : String
  success : Bool
  duration_ms : Nat
  error_message : Option String
  cost_tokens : Nat
deriving DecidableEq, Repr

/-- Database state seen by the coordinator:  the three tables, a logical
clock standing for `NOW()`, and the next fresh task identifier the store
assigns on `INSERT`. -/
structure DB where
  tasks : List Task
  agents : List AgentReg
  history : List HistoryEntry
  clock : Nat
  next_id : Nat
deriving DecidableEq, Repr

/-- First row of `task_queue` with the given id (the id is a primary
key, so at most one row matches in any well-formed state). -/
def findTask (db : DB) (id : Nat) : Option Task :=
  db.tasks.find? (fun t => t.task_id == id)

/-- First row of `agent_registry` with the given name. -/
def findAgent (db : DB) (name : String) : Option AgentReg :=
  db.agents.find? (fun a => a.agent_name == name)

/-- Python truthiness of an optional string: `None` and the empty string
are falsy (`if delegate_to:` in `execute_task`). -/
def pyTruthy (o : Option String) : Bool :=
  match o with
  | none => false
  | some s => s != ""

/-- Effect of one `UPDATE task_queue SET ...` of `update_task_status` on
a single row, given the current value of `NOW()`.  The three SQL
branches of the Python function are mirrored exactly; any other status
argument executes no SQL and leaves the row unchanged. -/
def applyStatusUpdate (now : Nat) (status : TaskStatus) (result : Option ResultDoc)
    (error : Option String) (t : Task) : Task :=
  match status with
  | .in_progress => { t with status := .in_progress, started_at := some now }
  | .completed => { t with status := .completed, completed_at := some now,
                           result := some (result.getD {}) }
  | .failed => { t with status := .failed, completed_at := some now,
                        error_log := error, retry_count := t.retry_count + 1 }
  | _ => t

/-- `update_task_status` (success path): updates every row whose
`task_id` matches, commits, and advances the clock. -/
def updateTaskStatusDB (db : DB) (id : Nat) (status : TaskStatus)
    (result : Option ResultDoc) (error : Option String) : DB :=
  { db with
    tasks := db.tasks.map (fun t =>
      if t.task_id == id then applyStatusUpdate db.clock status result error t else t),
    clock := db.clock + 1 }

/-- `update_agent_status` (success path): sets status, current task and
`last_active_at = NOW()` on every row whose `agent_name` matches. -/
def updateAgentStatusDB (db : DB) (name : String) (status : String)
    (task_id : Option Nat) : DB :=
  { db with
    agents := db.agents.map (fun a =>
      if a.agent_name == name then
        { a with status := status, current_task_id := task_id,
                 last_active_at := db.clock }
      else a),
    clock := db.clock + 1 }

/-- `log_task_history`: appends one immutable audit row. -/
def logTaskHistoryDB (db : DB) (agent_name : String) (task_id : Nat)
    (task_type : String) (success : Bool) (duration_ms : Nat)
    (error_message : Option String) (cost_tokens : Nat) : DB :=
  { db with
    history := db.history ++
      [{ agent_name := agent_name, task_id := task_id, task_type := task_type,
         success := success, duration_ms := duration_ms,
         error_message := error_message, cost_tokens := cost_tokens }] }

/-- The `INSERT INTO task_queue` executed by `execute_task` when SOLACE
delegates: columns `(task_type, priority, status, created_by,
assigned_to_agent, description, context)` with literal values
`assigned` and `SOLACE`; the store assigns the fresh id and the
creation timestamp, all other columns take their defaults. -/
def insertDelegatedDB (db : DB) (task_type : String) (priority : Int)
    (delegate_to : String) (description : String) (parent : Nat)
    (guidance : Option String) : DB :=
  { db with
    tasks := db.tasks ++
      [{ task_id := db.next_id, task_type := task_type, priority := priority,
         status := .assigned, created_by := "SOLACE",
         assigned_to_agent := delegate_to, description := description,
         context := .delegated parent guidance, created_at := db.clock }],
    next_id := db.next_id + 1,
    clock := db.clock + 1 }

/-- Comparison realising `ORDER BY priority DESC, created_at ASC`:
`a` may be placed before `b`. -/
def taskBefore (a b : Task) : Prop :=
  b.priority < a.priority ∨ (a.priority = b.priority ∧ a.created_at ≤ b.created_at)

instance : DecidableRel taskBefore := fun a b => by
  unfold taskBefore
  infer_instance

/-- `get_pending_tasks`:
`SELECT ... WHERE status = assigned ORDER BY priority DESC, created_at ASC LIMIT 10`. -/
def getPendingTasks (db : DB) : List Task :=
  ((db.tasks.filter (fun t => t.status == .assigned)).insertionSort taskBefore).take 10

/-- External-world oracle: for each worker, invoking it on a task either
returns a result document or raises an error message (transport, HTTP
or client-missing failures of `execute_with_*`). -/
structure ApiEnv where
  solace : Task → Except String ResultDoc
  forge : Task → Except String ResultDoc
  architect : Task → Except String ResultDoc
  sentinel : Task → Except String ResultDoc

/-- Routing chain of `execute_task`, together with the token count that
the loop extracts (`result.get` with default 0 is only evaluated for
SOLACE and FORGE; the other branches leave the initial 0). -/
def routeAndRun (env : ApiEnv) (task : Task) : Except String (ResultDoc × Nat) :=
  if task.assigned_to_agent == "SOLACE" then
    (env.solace task).map (fun r => (r, r.tokens_used))
  else if task.assigned_to_agent == "FORGE" then
    (env.forge task).map (fun r => (r, r.tokens_used))
  else if task.assigned_to_agent == "ARCHITECT" then
    (env.architect task).map (fun r => (r, 0))
  else if task.assigned_to_agent == "SENTINEL" then
    (env.sentinel task).map (fun r => (r, 0))
  else
    .error ("Unknown agent: " ++ task.assigned_to_agent)

/-- First phase of `execute_task`, before the worker is invoked:
mark the task `in_progress`, mark the worker `busy` holding it. -/
def markInProgressPhase (db : DB) (task : Task) : DB :=
  updateAgentStatusDB (updateTaskStatusDB db task.task_id .in_progress none none)
    task.assigned_to_agent "busy" (some task.task_id)

/-- Second phase of `execute_task`: route to the worker; on success
optionally insert the delegated follow-on task, then mark completed,
mark the worker idle and append history; on any raised error mark
failed, mark the worker idle and append history. -/
def finishPhase (env : ApiEnv) (task : Task) (db : DB) : DB :=
  match routeAndRun env task with
  | .ok (result, tokens) =>
    let db1 :=
      if task.assigned_to_agent == "SOLACE" && result.decision == some "delegate"
          && pyTruthy result.delegate_to then
        insertDelegatedDB db task.task_type task.priority
          (result.delegate_to.getD "") task.description task.task_id result.guidance
      else db
    let db2 := updateTaskStatusDB db1 task.task_id .completed (some result) none
    let db3 := updateAgentStatusDB db2 task.assigned_to_agent "idle" none
    logTaskHistoryDB db3 task.assigned_to_agent task.task_id task.task_type
      true 0 none tokens
  | .error e =>
    let db2 := updateTaskStatusDB db task.task_id .failed none (some e)
    let db3 := updateAgentStatusDB db2 task.assigned_to_agent "idle" none
    logTaskHistoryDB db3 task.assigned_to_agent task.task_id task.task_type
      false 0 (some e) 0

/-- `execute_task`. -/
def executeTask (env : ApiEnv) (db : DB) (task : Task) : DB :=
  finishPhase env task (markInProgressPhase db task)

/-- The `for task in tasks:` body of `run`: strictly sequential
processing of a batch. -/
def processBatch (env : ApiEnv) (db : DB) : List Task → DB
  | [] => db
  | t :: ts => processBatch env (executeTask env db t) ts

/-- One poll cycle of `run`: fetch the claimable batch, execute it. -/
def runCycle (env : ApiEnv) (db : DB) : DB :=
  processBatch env db (getPendingTasks db)

/-- Observable events of the loop, for stating ordering properties. -/
inductive LoopEvent where
  | exec (task_id : Nat)
  | sleep (seconds : Nat)
deriving DecidableEq, Repr

/-- The `while True:` loop of `run`, fuel-indexed: each iteration
fetches a batch, executes it sequentially in fetch order, sleeps the
fixed interval and repeats; the trace records the executions and
sleeps in order. -/
def runLoop (env : ApiEnv) (interval : Nat) (db : DB) : Nat → DB × List LoopEvent
  | 0 => (db, [])
  | n + 1 =>
    let batch := getPendingTasks db
    let db2 := processBatch env db batch
    let rest := runLoop env interval db2 n
    (rest.1, batch.map (fun t => LoopEvent.exec t.task_id)
      ++ [LoopEvent.sleep interval] ++ rest.2)

/-- Default of the `--interval` command-line argument in `main`. -/
def defaultInterval : Nat := 10

/-- Result of one call to a mutating store operation
(`update_task_status` / `update_agent_status`): the state after the
call, what (if anything) the operation raised to its caller, and what
(if anything) it logged itself.  Both Python functions wrap their SQL
in `try: ... commit / except: rollback; log`, so they catch every
store failure internally and return normally. -/
structure StoreResult where
  db : DB
  raised : Option String
  logged : Option String
deriving DecidableEq, Repr

/-- `update_task_status` with an injectable store failure: when the
underlying SQL raises `msg`, the `except` branch rolls the transaction
back (the state is unchanged) and logs the error; the function never
re-raises.  When the store works, the update commits immediately. -/
def updateTaskStatusOp (fault : Option String) (db : DB) (id : Nat)
    (status : TaskStatus) (result : Option ResultDoc) (error : Option String) :
    StoreResult :=
  match fault with
  | some msg => { db := db, raised := none, logged := some msg }
  | none => { db := updateTaskStatusDB db id status result error,
              raised := none, logged := none }

/-- `update_agent_status` with an injectable store failure, with the
same try/commit/except/rollback/log shape. -/
def updateAgentStatusOp (fault : Option String) (db : DB) (name : String)
    (status : String) (task_id : Option Nat) : StoreResult :=
  match fault with
  | some msg => { db := db, raised := none, logged := some msg }
  | none => { db := updateAgentStatusDB db name status task_id,
              raised := none, logged := none }

/-- Environment variables read at startup, plus reachability of the
local Ollama server probed by `_init_api_clients`. -/
structure Env where
  openai_api_key : Option String
  claude_api_key : Option String
  db_host : Option String
  db_user : Option String
  db_password : Option String
  db_name : Option String
  ollama_available : Bool
deriving DecidableEq, Repr

/-- Python falsiness of `os.getenv`: unset or empty string. -/
def pyFalsy (o : Option String) : Bool :=
  match o with
  | none => true
  | some s => s == ""

/-- `os.getenv` restricted to the keys the startup check reads. -/
def getenvKey (e : Env) (k : String) : Option String :=
  if k == "OPENAI_API_KEY" then e.openai_api_key
  else if k == "CLAUDE_API_KEY" then e.claude_api_key
  else if k == "DB_HOST" then e.db_host
  else if k == "DB_USER" then e.db_user
  else if k == "DB_PASSWORD" then e.db_password
  else if k == "DB_NAME" then e.db_name
  else none

/-- The module-level `required_keys` list of coordinator.py. -/
def requiredKeys : List String :=
  ["OPENAI_API_KEY", "CLAUDE_API_KEY", "DB_HOST", "DB_USER", "DB_PASSWORD", "DB_NAME"]

/-- `missing_keys = [key for key in required_keys if not os.getenv(key)]`. -/
def missingKeys (e : Env) : List String :=
  requiredKeys.filter (fun k => pyFalsy (getenvKey e k))

/-- `if missing_keys: sys.exit(1)` — whether startup aborts with a
non-zero exit code. -/
def startupExitsNonzero (e : Env) : Bool :=
  !(missingKeys e).isEmpty

/-- Which API clients `_init_api_clients` ends up with.  The function
only warns when a client cannot be created; it never exits. -/
structure Clients where
  openai_ok : Bool
  anthropic_ok : Bool
  ollama_ok : Bool
deriving DecidableEq, Repr

/-- `_init_api_clients`: creates the OpenAI and Anthropic clients when
their keys are set, probes Ollama, and returns in every case. -/
def initApiClients (e : Env) : Clients :=
  { openai_ok := !pyFalsy e.openai_api_key,
    anthropic_ok := !pyFalsy e.claude_api_key,
    ollama_ok := e.ollama_available }

/-- `execute_with_solace` after the HTTP response arrived: `parsed` is
the outcome of `json.loads` on the response text (`none` when parsing
raised).  On parse failure the bare `except:` substitutes a document
with decision `handle`, the raw text as reasoning and a fixed guidance
string; in both cases `tokens_used` is then written into the document. -/
def executeWithSolaceResult (parsed : Option ResultDoc) (result_text : String)
    (tokens_used : Nat) : ResultDoc :=
  match parsed with
  | some r => { r with tokens_used := tokens_used }
  | none =>
    { decision := some "handle", delegate_to := none,
      reasoning := some result_text, guidance := some "Processed by SOLACE",
      tokens_used := tokens_used }

/-! ### Helper lemmas -/

/-- `find?` commutes with a map that does not change the predicate. -/
theorem find?_map_eq {α : Type} (p : α → Bool) (f : α → α)
    (hp : ∀ t, p (f t) = p t) :
    ∀ l : List α, (l.map f).find? p = (l.find? p).map f := by
  intro l
  induction l with
  | nil => rfl
  | cons a l ih =>
    by_cases h : p a = true
    · simp [List.find?, hp, h]
    · simp only [Bool.not_eq_true] at h
      simp [List.find?, hp, h, ih]

theorem applyStatusUpdate_task_id (now : Nat) (st : TaskStatus)
    (res : Option ResultDoc) (err : Option String) (t : Task) :
    (applyStatusUpdate now st res err t).task_id = t.task_id := by
  cases st <;> rfl

/-- How one task-status update looks through `findTask`. -/
theorem findTask_updateTaskStatus (db : DB) (id : Nat) (st : TaskStatus)
    (res : Option ResultDoc) (err : Option String) (qid : Nat) :
    findTask (updateTaskStatusDB db id st res err) qid
      = (findTask db qid).map (fun t =>
          if t.task_id == id then applyStatusUpdate db.clock st res err t else t) := by
  unfold findTask updateTaskStatusDB
  apply find?_map_eq
  intro t
  by_cases h : t.task_id == id <;>
    simp [h, applyStatusUpdate_task_id]

theorem findTask_updateAgentStatus (db : DB) (name : String) (status : String)
    (task_id : Option Nat) (qid : Nat) :
    findTask (updateAgentStatusDB db name status task_id) qid = findTask db qid := rfl

theorem findTask_logTaskHistory (db : DB) (a : String) (i : Nat) (k : String)
    (s : Bool) (d : Nat) (e : Option String) (c : Nat) (qid : Nat) :
    findTask (logTaskHistoryDB db a i k s d e c) qid = findTask db qid := rfl

/-- Appending the delegated row does not disturb lookups that already
succeed on the existing rows. -/
theorem findTask_insertDelegated (db : DB) (k : String) (p : Int) (w : String)
    (d : String) (parent : Nat) (g : Option String) (qid : Nat) (t0 : Task)
    (h : findTask db qid = some t0) :
    findTask (insertDelegatedDB db k p w d parent g) qid = some t0 := by
  unfold findTask insertDelegatedDB at *
  simp only [List.find?_append, h, Option.or_some]

theorem findAgent_updateTaskStatus (db : DB) (id : Nat) (st : TaskStatus)
    (res : Option ResultDoc) (err : Option String) (name : String) :
    findAgent (updateTaskStatusDB db id st res err) name = findAgent db name := rfl

theorem findAgent_logTaskHistory (db : DB) (a : String) (i : Nat) (k : String)
    (s : Bool) (d : Nat) (e : Option String) (c : Nat) (name : String) :
    findAgent (logTaskHistoryDB db a i k s d e c) name = findAgent db name := rfl

theorem findAgent_insertDelegated (db : DB) (k : String) (p : Int) (w : String)
    (d : String) (parent : Nat) (g : Option String) (name : String) :
    findAgent (insertDelegatedDB db k p w d parent g) name = findAgent db name := rfl

/-- How one agent-status update looks through `findAgent`. -/
theorem findAgent_updateAgentStatus (db : DB) (name : String) (status : String)
    (task_id : Option Nat) (qname : String) :
    findAgent (updateAgentStatusDB db name status task_id) qname
      = (findAgent db qname).map (fun a =>
          if a.agent_name == name then
            { a with status := status, current_task_id := task_id,
                     last_active_at := db.clock }
          else a) := by
  unfold findAgent updateAgentStatusDB
  apply find?_map_eq
  intro a
  by_cases h : a.agent_name == name <;> simp [h]

/-- The claimable-batch comparison is transitive. -/
instance : IsTrans Task taskBefore := by
  constructor
  intro a b c h1 h2
  unfold taskBefore at *
  rcases h1 with h1 | ⟨h1, h1c⟩ <;> rcases h2 with h2 | ⟨h2, h2c⟩
  · exact Or.inl (lt_trans h2 h1)
  · exact Or.inl (h2 ▸ h1)
  · exact Or.inl (h1 ▸ h2)
  · exact Or.inr ⟨h1.trans h2, h1c.trans h2c⟩

/-- The claimable-batch comparison is total. -/
instance : IsTotal Task taskBefore := by
  constructor
  intro a b
  unfold taskBefore
  omega

/-- Every task in the claimable batch has status `assigned`. -/
theorem mem_getPendingTasks_status (db : DB) (t : Task)
    (h : t ∈ getPendingTasks db) : t.status = .assigned := by
  unfold getPendingTasks at h
  have h1 : t ∈ (db.tasks.filter (fun t => t.status == .assigned)).insertionSort taskBefore :=
    (List.take_sublist 10 _).subset h
  have h2 := (List.perm_insertionSort taskBefore _).subset h1
  have h3 := List.of_mem_filter h2
  exact of_decide_eq_true h3

/-- A successful `findTask` returns a row carrying the queried id. -/
theorem findTask_id {db : DB} {id : Nat} {t : Task}
    (h : findTask db id = some t) : t.task_id = id := by
  unfold findTask at h
  have h2 := List.find?_some h
  simpa using h2

/-- A successful `findAgent` returns a row carrying the queried name. -/
theorem findAgent_name {db : DB} {n : String} {a : AgentReg}
    (h : findAgent db n = some a) : a.agent_name = n := by
  unfold findAgent at h
  have h2 := List.find?_some h
  simpa using h2

/-- The task row after the pre-invocation phase: status `in_progress`,
`started_at` stamped with the fetch-time clock. -/
theorem findTask_markInProgressPhase (db : DB) (task : Task) (t0 : Task)
    (ht : findTask db task.task_id = some t0) :
    findTask (markInProgressPhase db task) task.task_id
      = some (applyStatusUpdate db.clock .in_progress none none t0) := by
  have hid : t0.task_id = task.task_id := findTask_id ht
  unfold markInProgressPhase
  rw [findTask_updateAgentStatus, findTask_updateTaskStatus, ht]
  simp [hid]

/-- The task row after the post-invocation phase when the worker
returned a result: marked `completed` with that result. -/
theorem findTask_finishPhase_ok (env : ApiEnv) (task : Task) (dbP : DB)
    (t1 : Task) (r : ResultDoc) (tk : Nat)
    (hr : routeAndRun env task = .ok (r, tk))
    (h : findTask dbP task.task_id = some t1) :
    ∃ c, findTask (finishPhase env task dbP) task.task_id
      = some (applyStatusUpdate c .completed (some r) none t1) := by
  have hid : t1.task_id = task.task_id := findTask_id h
  unfold finishPhase
  rw [hr]
  by_cases hd : (task.assigned_to_agent == "SOLACE" && r.decision == some "delegate"
      && pyTruthy r.delegate_to) = true
  · refine ⟨(insertDelegatedDB dbP task.task_type task.priority
      (r.delegate_to.getD "") task.description task.task_id r.guidance).clock, ?_⟩
    rw [findTask_logTaskHistory, findTask_updateAgentStatus, if_pos hd,
      findTask_updateTaskStatus,
      findTask_insertDelegated dbP task.task_type task.priority
        (r.delegate_to.getD "") task.description task.task_id r.guidance
        task.task_id t1 h]
    simp [hid]
  · refine ⟨dbP.clock, ?_⟩
    rw [findTask_logTaskHistory, findTask_updateAgentStatus, if_neg hd,
      findTask_updateTaskStatus, h]
    simp [hid]

/-- The task row after the post-invocation phase when routing or the
worker raised: marked `failed` with the raised message and an
incremented retry count. -/
theorem findTask_finishPhase_err (env : ApiEnv) (task : Task) (dbP : DB)
    (t1 : Task) (e : String)
    (hr : routeAndRun env task = .error e)
    (h : findTask dbP task.task_id = some t1) :
    findTask (finishPhase env task dbP) task.task_id
      = some (applyStatusUpdate dbP.clock .failed none (some e) t1) := by
  have hid : t1.task_id = task.task_id := findTask_id h
  unfold finishPhase
  rw [hr]
  rw [findTask_logTaskHistory, findTask_updateAgentStatus,
    findTask_updateTaskStatus, h]
  simp [hid]

/-- The worker registration after the pre-invocation phase: `busy`,
holding the task. -/
theorem findAgent_markInProgressPhase (db : DB) (task : Task) (a0 : AgentReg)
    (ha : findAgent db task.assigned_to_agent = some a0) :
    findAgent (markInProgressPhase db task) task.assigned_to_agent
      = some ({ a0 with
                status := "busy",
                current_task_id := some task.task_id,
                last_active_at := db.clock + 1 }) := by
  have hid : a0.agent_name = task.assigned_to_agent := findAgent_name ha
  unfold markInProgressPhase
  rw [findAgent_updateAgentStatus, findAgent_updateTaskStatus, ha]
  simp [hid, updateTaskStatusDB]

/-- Looking up the worker row after the idle update plus the history
append that close both branches of `execute_task`. -/
theorem findAgent_idle_after (dbX : DB) (name : String) (a1 : AgentReg)
    (h : findAgent dbX name = some a1) (ag : String) (i : Nat) (k : String)
    (s : Bool) (d : Nat) (e : Option String) (c : Nat) :
    findAgent (logTaskHistoryDB (updateAgentStatusDB dbX name "idle" none) ag i k s d e c) name
      = some ({ a1 with
                status := "idle",
                current_task_id := none,
                last_active_at := dbX.clock }) := by
  have hid : a1.agent_name = name := findAgent_name h
  rw [findAgent_logTaskHistory, findAgent_updateAgentStatus, h]
  simp [hid]

/-- The worker registration after the post-invocation phase: `idle`,
holding nothing — in the success and the failure branch alike. -/
theorem findAgent_finishPhase (env : ApiEnv) (task : Task) (dbP : DB)
    (a1 : AgentReg)
    (ha : findAgent dbP task.assigned_to_agent = some a1) :
    ∃ a2, findAgent (finishPhase env task dbP) task.assigned_to_agent = some a2
      ∧ a2.status = "idle" ∧ a2.current_task_id = none := by
  unfold finishPhase
  cases hr : routeAndRun env task with
  | ok p =>
    obtain ⟨r, tk⟩ := p
    dsimp only
    by_cases hd : (task.assigned_to_agent == "SOLACE" && r.decision == some "delegate"
        && pyTruthy r.delegate_to) = true
    · rw [if_pos hd]
      refine ⟨_, findAgent_idle_after _ _ a1 ?_ _ _ _ _ _ _ _, rfl, rfl⟩
      rw [findAgent_updateTaskStatus, findAgent_insertDelegated]
      exact ha
    · rw [if_neg hd]
      refine ⟨_, findAgent_idle_after _ _ a1 ?_ _ _ _ _ _ _ _, rfl, rfl⟩
      rw [findAgent_updateTaskStatus]
      exact ha
  | error e =>
    dsimp only
    refine ⟨_, findAgent_idle_after _ _ a1 ?_ _ _ _ _ _ _ _, rfl, rfl⟩
    rw [findAgent_updateTaskStatus]
    exact ha

/-! ### Concrete fixtures used by witnesses and counterexamples -/

def agentRow (n : String) : AgentReg :=
  { agent_name := n, status := "idle", current_task_id := none, last_active_at := 0 }

def taskA : Task :=
  { task_id := 1, task_type := "ui_build", priority := 5, status := .assigned,
    created_by := "user", assigned_to_agent := "SOLACE",
    description := "build the panel", context := .json "", created_at := 3 }

def taskB : Task :=
  { task_id := 2, task_type := "planning", priority := 8, status := .assigned,
    created_by := "user", assigned_to_agent := "FORGE",
    description := "plan the feature", context := .json "", created_at := 7 }

def taskDone : Task :=
  { task_id := 3, task_type := "testing", priority := 9, status := .completed,
    created_by := "user", assigned_to_agent := "SENTINEL",
    description := "already done", context := .json "", created_at := 1 }

def dbW : DB :=
  { tasks := [taskA, taskB, taskDone],
    agents := [agentRow "SOLACE", agentRow "FORGE", agentRow "ARCHITECT", agentRow "SENTINEL"],
    history := [], clock := 20, next_id := 100 }

/-! ### Claims -/

def okDoc : ResultDoc :=
  { decision := some "handle", reasoning := some "ok", body := "done", agent := "SOLACE" }

def envW : ApiEnv :=
  { solace := fun _ => .ok okDoc, forge := fun _ => .ok okDoc,
    architect := fun _ => .ok okDoc, sentinel := fun _ => .ok okDoc }

def taskGhost : Task :=
  { task_id := 4, task_type := "misc", priority := 1, status := .assigned,
    created_by := "user", assigned_to_agent := "GHOST",
    description := "nobody handles this", context := .json "", created_at := 2 }

def dbG : DB :=
  { tasks := [taskGhost], agents := [agentRow "GHOST"], history := [],
    clock := 5, next_id := 50 }

/-- C1: `get_pending_tasks` returns only tasks whose status is
`assigned`, at most 10 of them, and the batch is ordered by priority
descending with creation time ascending as the tie-break: whenever `a`
appears before `b` in the batch, either `a` has strictly higher
priority, or the priorities are equal and `a` was created no later. -/
theorem getPendingTasks_spec (db : DB) :
    (∀ t ∈ getPendingTasks db, t.status = .assigned)
    ∧ (getPendingTasks db).length ≤ 10
    ∧ List.Pairwise (fun a b =>
        b.priority < a.priority
        ∨ (a.priority = b.priority ∧ a.created_at ≤ b.created_at))
      (getPendingTasks db) := by
  refine ⟨fun t ht => mem_getPendingTasks_status db t ht, ?_, ?_⟩
  · unfold getPendingTasks
    simp [List.length_take_le 10 _]
  · have hs := List.sorted_insertionSort taskBefore
      (db.tasks.filter (fun t => t.status == .assigned))
    have ht : List.Pairwise taskBefore (getPendingTasks db) :=
      hs.sublist (List.take_sublist 10 _)
    exact ht.imp (fun h => h)

/-- C1 witness: on a concrete database the batch contains `taskB` with
status `assigned`. -/
theorem getPendingTasks_spec_witness :
    taskB.status = TaskStatus.assigned ∧ (getPendingTasks dbW).length ≤ 10 :=
  ⟨(getPendingTasks_spec dbW).1 taskB (by decide), (getPendingTasks_spec dbW).2.1⟩

/-- C3: any exception raised by routing (including an unknown worker
identifier outside SOLACE, FORGE, ARCHITECT, SENTINEL) or by worker
execution leaves the task `failed` with the original error message in
the error log, the completed timestamp set and the retry count
incremented by exactly one, and the loop continues with the next task
of the batch rather than aborting. -/
theorem executeTask_failure_spec (env : ApiEnv) (db : DB) (task : Task)
    (e : String) (t0 : Task)
    (hroute : routeAndRun env task = .error e)
    (ht : findTask db task.task_id = some t0) :
    (∃ t1, findTask (executeTask env db task) task.task_id = some t1
      ∧ t1.status = .failed
      ∧ t1.error_log = some e
      ∧ t1.completed_at.isSome = true
      ∧ t1.retry_count = t0.retry_count + 1)
    ∧ (task.assigned_to_agent ≠ "SOLACE" → task.assigned_to_agent ≠ "FORGE" →
        task.assigned_to_agent ≠ "ARCHITECT" → task.assigned_to_agent ≠ "SENTINEL" →
        routeAndRun env task = .error ("Unknown agent: " ++ task.assigned_to_agent))
    ∧ (∀ ts : List Task, processBatch env db (task :: ts)
        = processBatch env (executeTask env db task) ts) := by
  refine ⟨?_, ?_, fun ts => rfl⟩
  · have h1 := findTask_markInProgressPhase db task t0 ht
    have h2 := findTask_finishPhase_err env task (markInProgressPhase db task) _ e hroute h1
    exact ⟨_, h2, by simp [applyStatusUpdate], by simp [applyStatusUpdate],
      by simp [applyStatusUpdate], by simp [applyStatusUpdate]⟩
  · intro h1 h2 h3 h4
    simp [routeAndRun, h1, h2, h3, h4]

/-- C3 witness: an unknown worker identifier on a concrete database. -/
theorem executeTask_failure_spec_witness :
    (∃ t1, findTask (executeTask envW dbG taskGhost) taskGhost.task_id = some t1
      ∧ t1.status = TaskStatus.failed
      ∧ t1.error_log = some ("Unknown agent: " ++ taskGhost.assigned_to_agent)
      ∧ t1.completed_at.isSome = true
      ∧ t1.retry_count = taskGhost.retry_count + 1)
    ∧ (taskGhost.assigned_to_agent ≠ "SOLACE" → taskGhost.assigned_to_agent ≠ "FORGE" →
        taskGhost.assigned_to_agent ≠ "ARCHITECT" → taskGhost.assigned_to_agent ≠ "SENTINEL" →
        routeAndRun envW taskGhost
          = .error ("Unknown agent: " ++ taskGhost.assigned_to_agent))
    ∧ (∀ ts : List Task, processBatch envW dbG (taskGhost :: ts)
        = processBatch envW (executeTask envW dbG taskGhost) ts) :=
  executeTask_failure_spec envW dbG taskGhost
    ("Unknown agent: " ++ taskGhost.assigned_to_agent) taskGhost (by rfl) (by rfl)

/-- C4: the loop marks a task `in_progress` (stamping `started_at`)
immediately before invoking the worker — `execute_task` is by
definition the post-invocation phase applied to the pre-invocation
phase — and the final row produced by the loop always has `started_at`
set together with `completed_at`, so no task goes from `assigned`
straight to a terminal status. -/
theorem executeTask_in_progress_first (env : ApiEnv) (db : DB) (task : Task)
    (t0 : Task)
    (ht : findTask db task.task_id = some t0) :
    executeTask env db task = finishPhase env task (markInProgressPhase db task)
    ∧ (∃ t1, findTask (markInProgressPhase db task) task.task_id = some t1
        ∧ t1.status = .in_progress ∧ t1.started_at = some db.clock)
    ∧ (∃ t2, findTask (executeTask env db task) task.task_id = some t2
        ∧ t2.started_at = some db.clock
        ∧ t2.completed_at.isSome = true
        ∧ (t2.status = .completed ∨ t2.status = .failed)) := by
  refine ⟨rfl, ?_, ?_⟩
  · exact ⟨_, findTask_markInProgressPhase db task t0 ht,
      by simp [applyStatusUpdate], by simp [applyStatusUpdate]⟩
  · have h1 := findTask_markInProgressPhase db task t0 ht
    cases hr : routeAndRun env task with
    | ok p =>
      obtain ⟨r, tk⟩ := p
      obtain ⟨c, h2⟩ := findTask_finishPhase_ok env task _ _ r tk hr h1
      exact ⟨_, h2, by simp [applyStatusUpdate], by simp [applyStatusUpdate],
        Or.inl (by simp [applyStatusUpdate])⟩
    | error e =>
      have h2 := findTask_finishPhase_err env task _ _ e hr h1
      exact ⟨_, h2, by simp [applyStatusUpdate], by simp [applyStatusUpdate],
        Or.inr (by simp [applyStatusUpdate])⟩

/-- C4 witness: the concrete SOLACE task on the concrete database. -/
theorem executeTask_in_progress_first_witness :
    executeTask envW dbW taskA = finishPhase envW taskA (markInProgressPhase dbW taskA)
    ∧ (∃ t1, findTask (markInProgressPhase dbW taskA) taskA.task_id = some t1
        ∧ t1.status = TaskStatus.in_progress ∧ t1.started_at = some dbW.clock)
    ∧ (∃ t2, findTask (executeTask envW dbW taskA) taskA.task_id = some t2
        ∧ t2.started_at = some dbW.clock
        ∧ t2.completed_at.isSome = true
        ∧ (t2.status = TaskStatus.completed ∨ t2.status = TaskStatus.failed)) :=
  executeTask_in_progress_first envW dbW taskA taskA (by rfl)

/-- C5: for every task execution the assigned worker row is `busy`
holding the task id before the worker is invoked, and `idle` holding
nothing after `execute_task` returns, whether the execution succeeded
or failed. -/
theorem executeTask_worker_busy_idle (env : ApiEnv) (db : DB) (task : Task)
    (a0 : AgentReg)
    (ha : findAgent db task.assigned_to_agent = some a0) :
    (∃ a1, findAgent (markInProgressPhase db task) task.assigned_to_agent = some a1
      ∧ a1.status = "busy" ∧ a1.current_task_id = some task.task_id)
    ∧ (∃ a2, findAgent (executeTask env db task) task.assigned_to_agent = some a2
      ∧ a2.status = "idle" ∧ a2.current_task_id = none)
    ∧ executeTask env db task = finishPhase env task (markInProgressPhase db task) := by
  have h1 := findAgent_markInProgressPhase db task a0 ha
  exact ⟨⟨_, h1, rfl, rfl⟩, findAgent_finishPhase env task _ _ h1, rfl⟩

/-- C5 witness: the concrete SOLACE task on the concrete database. -/
theorem executeTask_worker_busy_idle_witness :
    (∃ a1, findAgent (markInProgressPhase dbW taskA) taskA.assigned_to_agent = some a1
      ∧ a1.status = "busy" ∧ a1.current_task_id = some taskA.task_id)
    ∧ (∃ a2, findAgent (executeTask envW dbW taskA) taskA.assigned_to_agent = some a2
      ∧ a2.status = "idle" ∧ a2.current_task_id = none)
    ∧ executeTask envW dbW taskA = finishPhase envW taskA (markInProgressPhase dbW taskA) :=
  executeTask_worker_busy_idle envW dbW taskA (agentRow "SOLACE") (by rfl)

/-- C8: once a task is in a terminal status it is never fetched or
re-executed: the loop executes exactly the batch returned by
`get_pending_tasks`, and that fetch selects only rows whose status is
`assigned`, so no `completed` or `failed` row is in the batch. -/
theorem terminal_not_refetched (env : ApiEnv) (db : DB) :
    (∀ t ∈ db.tasks, (t.status = .completed ∨ t.status = .failed) →
      t ∉ getPendingTasks db)
    ∧ runCycle env db = processBatch env db (getPendingTasks db) := by
  refine ⟨?_, rfl⟩
  intro t _ hterm hmem
  have hs := mem_getPendingTasks_status db t hmem
  rcases hterm with h | h <;> rw [hs] at h <;> simp at h

/-- C8 witness: the completed task of the concrete database is not in
the claimable batch. -/
theorem terminal_not_refetched_witness :
    taskDone ∉ getPendingTasks dbW :=
  (terminal_not_refetched envW dbW).1 taskDone (by decide) (Or.inl (by rfl))

/-- C9: within one poll cycle the loop processes the fetched batch one
task at a time, strictly sequentially in fetch order, then sleeps the
fixed interval and repeats; the default interval from the command line
is 10 seconds. -/
theorem runLoop_trace_spec (env : ApiEnv) (interval : Nat) (db : DB) (n : Nat) :
    (runLoop env interval db (n + 1)).2
      = (getPendingTasks db).map (fun t => LoopEvent.exec t.task_id)
        ++ [LoopEvent.sleep interval]
        ++ (runLoop env interval (runCycle env db) n).2
    ∧ (runLoop env interval db (n + 1)).1
      = (runLoop env interval (runCycle env db) n).1
    ∧ (∀ (db2 : DB) (t : Task) (ts : List Task),
        processBatch env db2 (t :: ts) = processBatch env (executeTask env db2 t) ts)
    ∧ defaultInterval = 10 :=
  ⟨rfl, rfl, fun _ _ _ => rfl, rfl⟩

/-- C6 counterexample: when the store raises during
`update_task_status`, the operation catches the error itself — it rolls
back (the state is unchanged) and logs, but nothing is raised to the
caller, contrary to the claim that the error propagates to the
Dispatch Loop. -/
theorem updateTaskStatusOp_no_propagation_cex :
    (updateTaskStatusOp (some "connection lost") dbW 1 .completed (some okDoc) none).raised = none
    ∧ (updateTaskStatusOp (some "connection lost") dbW 1 .completed (some okDoc) none).db = dbW
    ∧ (updateTaskStatusOp (some "connection lost") dbW 1 .completed (some okDoc) none).logged
        = some "connection lost" :=
  ⟨rfl, rfl, rfl⟩

/-- C6 (amended): each mutating store operation runs in its own
transaction committing immediately; on a store failure it rolls back
(leaving the state unchanged) and logs the error inside the operation
itself, returning normally instead of propagating, and the loop
proceeds to the next task. -/
theorem storeOps_rollback_spec (fault : Option String) (db : DB) (id : Nat)
    (st : TaskStatus) (res : Option ResultDoc) (err : Option String)
    (name : String) (astatus : String) (tid : Option Nat) :
    (updateTaskStatusOp fault db id st res err).raised = none
    ∧ (updateAgentStatusOp fault db name astatus tid).raised = none
    ∧ (∀ msg, fault = some msg →
        (updateTaskStatusOp fault db id st res err).db = db
        ∧ (updateTaskStatusOp fault db id st res err).logged = some msg
        ∧ (updateAgentStatusOp fault db name astatus tid).db = db
        ∧ (updateAgentStatusOp fault db name astatus tid).logged = some msg)
    ∧ (fault = none →
        (updateTaskStatusOp fault db id st res err).db = updateTaskStatusDB db id st res err
        ∧ (updateAgentStatusOp fault db name astatus tid).db
            = updateAgentStatusDB db name astatus tid)
    ∧ (∀ (env : ApiEnv) (t : Task) (ts : List Task),
        processBatch env db (t :: ts) = processBatch env (executeTask env db t) ts) := by
  cases fault with
  | none =>
    refine ⟨rfl, rfl, ?_, ?_, fun _ _ _ => rfl⟩
    · intro msg h
      cases h
    · intro _
      exact ⟨rfl, rfl⟩
  | some m =>
    refine ⟨rfl, rfl, ?_, ?_, fun _ _ _ => rfl⟩
    · intro msg h
      cases h
      exact ⟨rfl, rfl, rfl, rfl⟩
    · intro h
      cases h

/-- C6 witness: a concrete faulting call rolls back, logs and returns
normally. -/
theorem storeOps_rollback_spec_witness :
    (updateTaskStatusOp (some "disk full") dbG 4 .failed none (some "x")).db = dbG
    ∧ (updateTaskStatusOp (some "disk full") dbG 4 .failed none (some "x")).logged
        = some "disk full"
    ∧ (updateAgentStatusOp (some "disk full") dbG "GHOST" "idle" none).db = dbG
    ∧ (updateAgentStatusOp (some "disk full") dbG "GHOST" "idle" none).logged
        = some "disk full" :=
  (storeOps_rollback_spec (some "disk full") dbG 4 .failed none (some "x")
    "GHOST" "idle" none).2.2.1 "disk full" rfl

/-- Concrete startup environment: every credential present except the
FORGE (Anthropic) key. -/
def envC7 : Env :=
  { openai_api_key := some "sk-1", claude_api_key := none,
    db_host := some "localhost", db_user := some "ARES",
    db_password := some "pw", db_name := some "ares_db",
    ollama_available := true }

/-- C7 counterexample: with all store credentials and the coordinator
(OpenAI) credential present but the FORGE (Anthropic) credential
missing, the module-level `required_keys` check still exits non-zero,
contrary to the claim that only store or coordinator credentials are
fatal. -/
theorem startup_claude_missing_cex :
    startupExitsNonzero envC7 = true
    ∧ envC7.claude_api_key = none
    ∧ pyFalsy envC7.openai_api_key = false
    ∧ pyFalsy envC7.db_host = false
    ∧ pyFalsy envC7.db_user = false
    ∧ pyFalsy envC7.db_password = false
    ∧ pyFalsy envC7.db_name = false := by
  decide

/-- C7 (amended): startup exits non-zero exactly when one of the six
required keys — the coordinator credential, the FORGE credential and
the four store parameters — is unset or empty; only the local-model
workers (ARCHITECT, SENTINEL) degrade to unavailable without aborting
when the local server cannot be reached, and client initialisation
never exits. -/
theorem startup_exit_iff (e : Env) :
    (startupExitsNonzero e = true ↔
      (pyFalsy e.openai_api_key = true ∨ pyFalsy e.claude_api_key = true
        ∨ pyFalsy e.db_host = true ∨ pyFalsy e.db_user = true
        ∨ pyFalsy e.db_password = true ∨ pyFalsy e.db_name = true))
    ∧ (initApiClients e).ollama_ok = e.ollama_available
    ∧ (initApiClients e).openai_ok = !pyFalsy e.openai_api_key
    ∧ (initApiClients e).anthropic_ok = !pyFalsy e.claude_api_key := by
  refine ⟨?_, rfl, rfl, rfl⟩
  unfold startupExitsNonzero missingKeys requiredKeys getenvKey
  by_cases h1 : pyFalsy e.openai_api_key = true <;>
  by_cases h2 : pyFalsy e.claude_api_key = true <;>
  by_cases h3 : pyFalsy e.db_host = true <;>
  by_cases h4 : pyFalsy e.db_user = true <;>
  by_cases h5 : pyFalsy e.db_password = true <;>
  by_cases h6 : pyFalsy e.db_name = true <;>
  simp [List.filter, h1, h2, h3, h4, h5, h6]

/-- Fixture for C10: the SOLACE worker answers with plain prose that is
not valid JSON, so the parse fallback document is returned. -/
def envP : ApiEnv :=
  { solace := fun _ => .ok (executeWithSolaceResult none "plain prose answer" 7),
    forge := fun _ => .ok okDoc, architect := fun _ => .ok okDoc,
    sentinel := fun _ => .ok okDoc }

/-- The pre-invocation phase does not add or remove task rows. -/
theorem markInProgressPhase_tasks_length (db : DB) (task : Task) :
    (markInProgressPhase db task).tasks.length = db.tasks.length := by
  simp [markInProgressPhase, updateAgentStatusDB, updateTaskStatusDB]

/-- A successful non-delegating execution adds no task row. -/
theorem finishPhase_tasks_length_ok (env : ApiEnv) (task : Task) (dbP : DB)
    (r : ResultDoc) (tk : Nat)
    (hr : routeAndRun env task = .ok (r, tk))
    (hnd : (task.assigned_to_agent == "SOLACE" && r.decision == some "delegate"
        && pyTruthy r.delegate_to) = false) :
    (finishPhase env task dbP).tasks.length = dbP.tasks.length := by
  unfold finishPhase
  rw [hr]
  dsimp only
  rw [if_neg (by simp [hnd])]
  simp [logTaskHistoryDB, updateAgentStatusDB, updateTaskStatusDB]

/-- A failed execution adds no task row. -/
theorem finishPhase_tasks_length_err (env : ApiEnv) (task : Task) (dbP : DB)
    (e : String)
    (hr : routeAndRun env task = .error e) :
    (finishPhase env task dbP).tasks.length = dbP.tasks.length := by
  unfold finishPhase
  rw [hr]
  simp [logTaskHistoryDB, updateAgentStatusDB, updateTaskStatusDB]

/-- A delegating execution adds exactly the one follow-on row, and that
row is the last row of the table, carrying status `assigned`, the
delegate target, the parent kind, priority and description, and the
delegation context. -/
theorem finishPhase_tasks_deleg (env : ApiEnv) (task : Task) (dbP : DB)
    (r : ResultDoc) (tk : Nat)
    (hr : routeAndRun env task = .ok (r, tk))
    (hd : (task.assigned_to_agent == "SOLACE" && r.decision == some "delegate"
        && pyTruthy r.delegate_to) = true)
    (hfresh : dbP.next_id ≠ task.task_id) :
    (finishPhase env task dbP).tasks.length = dbP.tasks.length + 1
    ∧ (finishPhase env task dbP).tasks.getLast? = some
        { task_id := dbP.next_id, task_type := task.task_type,
          priority := task.priority, status := .assigned,
          created_by := "SOLACE",
          assigned_to_agent := r.delegate_to.getD "",
          description := task.description,
          context := .delegated task.task_id r.guidance,
          created_at := dbP.clock } := by
  unfold finishPhase
  rw [hr]
  dsimp only
  rw [if_pos hd]
  constructor
  · simp [logTaskHistoryDB, updateAgentStatusDB, updateTaskStatusDB, insertDelegatedDB]
  · simp only [logTaskHistoryDB, updateAgentStatusDB, updateTaskStatusDB, insertDelegatedDB,
      List.map_append, List.map_cons, List.map_nil, List.getLast?_concat]
    simp [hfresh]

/-- C10: when the SOLACE response text is not parseable as JSON,
`execute_with_solace` returns normally with a document whose decision
is `handle` and whose reasoning preserves the raw text; such a
document never triggers delegation and the task is still marked
`completed` with it as result. -/
theorem executeWithSolace_parse_fallback (env : ApiEnv) (db : DB) (task : Task)
    (text : String) (tokens : Nat) (t0 : Task)
    (hagent : task.assigned_to_agent = "SOLACE")
    (hsol : env.solace task = .ok (executeWithSolaceResult none text tokens))
    (ht : findTask db task.task_id = some t0) :
    (executeWithSolaceResult none text tokens).decision = some "handle"
    ∧ (executeWithSolaceResult none text tokens).reasoning = some text
    ∧ (executeWithSolaceResult none text tokens).guidance = some "Processed by SOLACE"
    ∧ (executeWithSolaceResult none text tokens).decision ≠ some "delegate"
    ∧ (executeTask env db task).tasks.length = db.tasks.length
    ∧ (∃ t2, findTask (executeTask env db task) task.task_id = some t2
        ∧ t2.status = .completed
        ∧ t2.result = some (executeWithSolaceResult none text tokens)) := by
  have hr : routeAndRun env task = .ok (executeWithSolaceResult none text tokens, tokens) := by
    simp [routeAndRun, hagent, hsol, executeWithSolaceResult, Except.map]
  have hnd : (task.assigned_to_agent == "SOLACE"
      && (executeWithSolaceResult none text tokens).decision == some "delegate"
      && pyTruthy (executeWithSolaceResult none text tokens).delegate_to) = false := by
    simp [executeWithSolaceResult, pyTruthy]
  refine ⟨rfl, rfl, rfl, by simp [executeWithSolaceResult], ?_, ?_⟩
  · have hlen := finishPhase_tasks_length_ok env task (markInProgressPhase db task)
      _ _ hr hnd
    calc (executeTask env db task).tasks.length
        = (markInProgressPhase db task).tasks.length := hlen
      _ = db.tasks.length := markInProgressPhase_tasks_length db task
  · have h1 := findTask_markInProgressPhase db task t0 ht
    obtain ⟨c, h2⟩ := findTask_finishPhase_ok env task _ _ _ tokens hr h1
    exact ⟨_, h2, by simp [applyStatusUpdate], by simp [applyStatusUpdate]⟩

/-- C10 witness: a concrete unparseable response on the concrete
database. -/
theorem executeWithSolace_parse_fallback_witness :
    (executeWithSolaceResult none "plain prose answer" 7).decision = some "handle"
    ∧ (executeWithSolaceResult none "plain prose answer" 7).reasoning
        = some "plain prose answer"
    ∧ (executeWithSolaceResult none "plain prose answer" 7).guidance
        = some "Processed by SOLACE"
    ∧ (executeWithSolaceResult none "plain prose answer" 7).decision ≠ some "delegate"
    ∧ (executeTask envP dbW taskA).tasks.length = dbW.tasks.length
    ∧ (∃ t2, findTask (executeTask envP dbW taskA) taskA.task_id = some t2
        ∧ t2.status = TaskStatus.completed
        ∧ t2.result = some (executeWithSolaceResult none "plain prose answer" 7)) :=
  executeWithSolace_parse_fallback envP dbW taskA "plain prose answer" 7 taskA
    rfl rfl rfl

/-- SOLACE result whose delegate target is present but empty: non-null
non-null in the sense of the claim, yet falsy for the `if delegate_to:` check. -/
def docEmptyTarget : ResultDoc :=
  { decision := some "delegate", delegate_to := some "",
    reasoning := some "delegate please", guidance := some "g" }

def envD0 : ApiEnv :=
  { solace := fun _ => .ok docEmptyTarget, forge := fun _ => .ok okDoc,
    architect := fun _ => .ok okDoc, sentinel := fun _ => .ok okDoc }

/-- SOLACE result delegating to FORGE with a real target. -/
def docDeleg : ResultDoc :=
  { decision := some "delegate", delegate_to := some "FORGE",
    reasoning := some "UI work", guidance := some "use the purple theme" }

def envD : ApiEnv :=
  { solace := fun _ => .ok docDeleg, forge := fun _ => .ok okDoc,
    architect := fun _ => .ok okDoc, sentinel := fun _ => .ok okDoc }

/-- C2 counterexample: a SOLACE result with decision `delegate` and a
non-null (but empty) delegate target inserts no new task, because
`execute_task` tests Python truthiness of the target, not nullity:
the table keeps its former length. -/
theorem executeTask_delegate_nonnull_cex :
    docEmptyTarget.decision = some "delegate"
    ∧ docEmptyTarget.delegate_to ≠ none
    ∧ (executeTask envD0 dbW taskA).tasks.length = dbW.tasks.length := by
  refine ⟨rfl, by simp [docEmptyTarget], by decide⟩

/-- C2 (amended): if and only if the SOLACE result has decision
`delegate` with a truthy (non-null and non-empty) delegate target,
exactly one new task is inserted — appended with status `assigned`,
worker identifier equal to the target, the kind, priority and
description of the original, and context recording the original task
id and the guidance string — while the original task is still marked
`completed` with the SOLACE output as its result. -/
theorem executeTask_delegate_iff (env : ApiEnv) (db : DB) (task : Task)
    (doc : ResultDoc) (t0 : Task)
    (hagent : task.assigned_to_agent = "SOLACE")
    (hsol : env.solace task = .ok doc)
    (ht : findTask db task.task_id = some t0)
    (hfresh : db.next_id ≠ task.task_id) :
    ((executeTask env db task).tasks.length = db.tasks.length + 1
      ↔ (doc.decision = some "delegate" ∧ pyTruthy doc.delegate_to = true))
    ∧ ((doc.decision = some "delegate" ∧ pyTruthy doc.delegate_to = true) →
        (executeTask env db task).tasks.getLast? = some
          { task_id := db.next_id, task_type := task.task_type,
            priority := task.priority, status := .assigned,
            created_by := "SOLACE",
            assigned_to_agent := doc.delegate_to.getD "",
            description := task.description,
            context := .delegated task.task_id doc.guidance,
            created_at := db.clock + 2 })
    ∧ (∃ t2, findTask (executeTask env db task) task.task_id = some t2
        ∧ t2.status = .completed ∧ t2.result = some doc) := by
  have hr : routeAndRun env task = .ok (doc, doc.tokens_used) := by
    simp [routeAndRun, hagent, hsol, Except.map]
  have hthird : ∃ t2, findTask (executeTask env db task) task.task_id = some t2
      ∧ t2.status = .completed ∧ t2.result = some doc := by
    have h1 := findTask_markInProgressPhase db task t0 ht
    obtain ⟨c, h2⟩ := findTask_finishPhase_ok env task _ _ doc doc.tokens_used hr h1
    exact ⟨_, h2, by simp [applyStatusUpdate], by simp [applyStatusUpdate]⟩
  by_cases hd : (doc.decision = some "delegate" ∧ pyTruthy doc.delegate_to = true)
  · have hdb : (task.assigned_to_agent == "SOLACE" && doc.decision == some "delegate"
        && pyTruthy doc.delegate_to) = true := by
      simp [hagent, hd.1, hd.2]
    obtain ⟨hlen, hlast⟩ := finishPhase_tasks_deleg env task (markInProgressPhase db task)
      doc doc.tokens_used hr hdb hfresh
    refine ⟨?_, fun _ => hlast, hthird⟩
    rw [show executeTask env db task
        = finishPhase env task (markInProgressPhase db task) from rfl,
      hlen, markInProgressPhase_tasks_length]
    exact iff_of_true rfl hd
  · have hdb : (task.assigned_to_agent == "SOLACE" && doc.decision == some "delegate"
        && pyTruthy doc.delegate_to) = false := by
      by_cases hdec : doc.decision = some "delegate"
      · have hpt : pyTruthy doc.delegate_to = false := by
          by_contra hc
          rw [Bool.not_eq_false] at hc
          exact hd ⟨hdec, hc⟩
        simp [hpt]
      · simp [hdec]
    have hlen := finishPhase_tasks_length_ok env task (markInProgressPhase db task)
      doc doc.tokens_used hr hdb
    refine ⟨?_, fun hcon => absurd hcon hd, hthird⟩
    rw [show executeTask env db task
        = finishPhase env task (markInProgressPhase db task) from rfl,
      hlen, markInProgressPhase_tasks_length]
    exact iff_of_false (by omega) hd

/-- C2 witness: a concrete delegation from SOLACE to FORGE. -/
theorem executeTask_delegate_iff_witness :
    ((executeTask envD dbW taskA).tasks.length = dbW.tasks.length + 1
      ↔ (docDeleg.decision = some "delegate" ∧ pyTruthy docDeleg.delegate_to = true))
    ∧ ((docDeleg.decision = some "delegate" ∧ pyTruthy docDeleg.delegate_to = true) →
        (executeTask envD dbW taskA).tasks.getLast? = some
          { task_id := dbW.next_id, task_type := taskA.task_type,
            priority := taskA.priority, status := TaskStatus.assigned,
            created_by := "SOLACE",
            assigned_to_agent := docDeleg.delegate_to.getD "",
            description := taskA.description,
            context := TaskContext.delegated taskA.task_id docDeleg.guidance,
            created_at := dbW.clock + 2 })
    ∧ (∃ t2, findTask (executeTask envD dbW taskA) taskA.task_id = some t2
        ∧ t2.status = TaskStatus.completed ∧ t2.result = some docDeleg) :=
  executeTask_delegate_iff envD dbW taskA docDeleg taskA rfl rfl rfl (by decide)

end Swarm
